import Mathlib

/-!
Verification of the personnel-management dashboard's core logic: the CSV
ingestion/normalization routine (`parseCSVData`), the scoring engine
(`calculateReadinessScore`, `predictAttritionRisk`,
`generateTrainingRecommendations`), the analytics aggregator's banded
percentage summaries, and the planning stores (training-program enrollment
and mission assignment).

The TypeScript source is embedded shallowly:

* JS `number` values are modelled as `ℚ` (exact rational arithmetic; the
  source only performs `+ - * /`, `Math.min`, `Math.floor` and `Math.round`
  on values parsed from decimal text, so the idealized rational semantics
  coincides with the intent of the code).  `Math.floor` is `Rat.floor`,
  `Math.round x` is `round x = ⌊x + 1/2⌋` (both round halves toward +∞).
* JS strings are ASCII here; `toLowerCase`, `trim`, `split`, `includes`
  are re-implemented structurally on `List Char` so that every definition
  is kernel-executable.
* `Math.random()` draws are injected as a stream `u : ℕ → ℚ` of values
  (in `[0,1)` per that function's contract) consumed left to right, with a
  counter threaded through the parser exactly where the source reaches a
  randomized default.
* `Date` arithmetic in `generateTrainingRecommendations` is injected as a
  reference instant `now` (ms) and a date-string parsing function
  `dateMs : String → ℤ` (ms), matching "tests must inject or fix the
  reference date".
* The dynamic parsed-row objects of `parseCSVData` are association lists
  of `Value`s (string or number), with JS truthiness and the trailing
  object-spread `...record` modelled explicitly.
-/

attribute [local semireducible] Rat.mul Rat.add Rat.inv Rat.sub

/-! ## JavaScript string and number primitives -/

/-- ASCII model of `String.prototype.toLowerCase`. -/
def jsToLower (s : String) : String := String.mk (s.toList.map Char.toLower)

/-- Model of `String.prototype.trim` (whitespace stripped from both ends). -/
def jsTrim (s : String) : String :=
  String.mk (((s.toList.dropWhile Char.isWhitespace).reverse.dropWhile
    Char.isWhitespace).reverse)

/-- Split a character list at every occurrence of `sep` (the separator is a
single character in every `split` call of the source: `','` and `'\n'`). -/
def splitOnChar (sep : Char) : List Char → List (List Char)
  | [] => [[]]
  | c :: rest =>
    let r := splitOnChar sep rest
    if c = sep then [] :: r
    else
      match r with
      | [] => [[c]]
      | h :: t => (c :: h) :: t

/-- Model of `String.prototype.split` with a one-character separator. -/
def jsSplit (sep : Char) (s : String) : List String :=
  (splitOnChar sep s.toList).map String.mk

/-- Decides whether `pat` occurs at the head of `l`. -/
def startsWithList : List Char → List Char → Bool
  | _, [] => true
  | [], _ :: _ => false
  | a :: as, b :: bs => a = b && startsWithList as bs

/-- Decides whether `pat` occurs contiguously inside `l`. -/
def containsList (l pat : List Char) : Bool :=
  match l with
  | [] => pat.isEmpty
  | _ :: rest => startsWithList l pat || containsList rest pat

/-- Model of `String.prototype.includes`. -/
def jsIncludes (s sub : String) : Bool := containsList s.toList sub.toList

/-- Digit-prefix extraction used by the `parseFloat` model: the longest run
of decimal digits at the head, together with the remaining characters. -/
def takeDigits : List Char → List Char × List Char
  | [] => ([], [])
  | c :: cs =>
    if c.isDigit then
      let r := takeDigits cs
      (c :: r.1, r.2)
    else ([], c :: cs)

/-- Numeric value of a digit run. -/
def digitsToNat (ds : List Char) : ℕ :=
  ds.foldl (fun n c => 10 * n + (c.toNat - 48)) 0

/-- Model of JavaScript `parseFloat`: skip leading whitespace, then read the
longest prefix of the form `[+-]? digits [. digits]? ([eE] [+-]? digits)?`;
`none` models the `NaN` result when no numeric prefix exists.  (The
`Infinity` literals, which no personnel spreadsheet cell is expected to
carry, are not modelled.) -/
def jsParseFloat (s : String) : Option ℚ :=
  let cs0 := s.toList.dropWhile Char.isWhitespace
  let signAndRest : ℚ × List Char :=
    match cs0 with
    | '-' :: rest => (-1, rest)
    | '+' :: rest => (1, rest)
    | _ => (1, cs0)
  let intPart := takeDigits signAndRest.2
  let fracPart : List Char × List Char :=
    match intPart.2 with
    | '.' :: rest => takeDigits rest
    | _ => ([], intPart.2)
  if intPart.1.isEmpty && fracPart.1.isEmpty then none
  else
    let mant : ℚ :=
      (digitsToNat intPart.1 : ℚ) + (digitsToNat fracPart.1 : ℚ) / (10 ^ fracPart.1.length : ℚ)
    let expo : ℤ :=
      match fracPart.2 with
      | 'e' :: rest | 'E' :: rest =>
        let esignAndRest : ℤ × List Char :=
          match rest with
          | '-' :: r => (-1, r)
          | '+' :: r => (1, r)
          | _ => (1, rest)
        let eds := takeDigits esignAndRest.2
        if eds.1.isEmpty then 0 else esignAndRest.1 * (digitsToNat eds.1 : ℤ)
      | _ => 0
    some (signAndRest.1 * mant * (10 : ℚ) ^ expo)

/-- Model of `String(n).padStart(w, '0')` for a natural number `n`. -/
def zeroPad (w : ℕ) (n : ℕ) : String :=
  let s := toString n
  String.mk (List.replicate (w - s.length) '0') ++ s

/-! ## Data model: the `PersonnelData` interface

The typed record shape shared by every component
(`id`/`name`/`rank`/`branch`/`specialization` strings, numeric
`experience`/`age`/`trainingScore`, categorical strings, `lastDeployment`
date string). -/

structure PersonnelData where
  id : String
  name : String
  rank : String
  branch : String
  specialization : String
  experience : ℚ
  age : ℚ
  medicalStatus : String
  trainingScore : ℚ
  missionReadiness : String
  lastDeployment : String
  skillLevel : String
  leadershipPotential : String
deriving DecidableEq

/-! ## Scoring engine -/

/-- Embedding of `calculateReadinessScore`: the running `score`
accumulation (`score += ...`) is written as a left-nested sum in the same
order as the source, and the final `Math.round` is Mathlib's `round`. -/
def calculateReadinessScore (personnel : PersonnelData) : ℤ :=
  round (((((0 : ℚ)
    + (match jsToLower personnel.medicalStatus with
        | "fit" => (40 : ℚ)
        | "limited duty" => 25
        | "under review" => 10
        | _ => 20))
    + personnel.trainingScore / 100 * 30)
    + min (personnel.experience / 20) 1 * 20)
    + (match jsToLower personnel.skillLevel with
        | "expert" => (10 : ℚ)
        | "advanced" => 8
        | "intermediate" => 6
        | "beginner" => 4
        | _ => 5))

/-- Embedding of `predictAttritionRisk`: the `riskScore` accumulation in
source order, then the `>= 4` / `>= 2` tier thresholds. -/
def predictAttritionRisk (personnel : PersonnelData) : String :=
  let riskScore : ℤ := ((((0
    + (if 45 < personnel.age then 2 else if 40 < personnel.age then 1 else 0))
    + (if 15 < personnel.experience then 2 else if 10 < personnel.experience then 1 else 0))
    + (if jsToLower personnel.medicalStatus ≠ "fit" then 1 else 0))
    + (if personnel.trainingScore < 70 then 1 else 0))
    + (if jsToLower personnel.missionReadiness = "not ready" then 1 else 0)
  if 4 ≤ riskScore then "High" else if 2 ≤ riskScore then "Medium" else "Low"

/-- Embedding of `generateTrainingRecommendations`.  The wall-clock
dependency is injected: `now` is the reference instant in ms and `dateMs`
is the date-string-to-ms parse; `daysSinceDeployment` is then the
`Math.floor` of their difference over `1000*60*60*24`. -/
def generateTrainingRecommendations (now : ℤ) (dateMs : String → ℤ)
    (personnel : PersonnelData) : List String :=
  let recs : List String := []
  let recs := if personnel.trainingScore < 70
    then recs ++ ["Core Skills Refresher Training"] else recs
  let recs := if jsToLower personnel.skillLevel = "beginner" ∨
      jsToLower personnel.skillLevel = "intermediate"
    then recs ++ ["Advanced Technical Training"] else recs
  let recs := if jsToLower personnel.leadershipPotential = "high" ∧ 5 < personnel.experience
    then recs ++ ["Leadership Development Program"] else recs
  let recs := if jsToLower personnel.missionReadiness = "training"
    then recs ++ ["Mission Readiness Assessment"] else recs
  let daysSinceDeployment : ℤ := (now - dateMs personnel.lastDeployment).fdiv 86400000
  let recs := if 365 < daysSinceDeployment
    then recs ++ ["Deployment Readiness Training"] else recs
  if recs.isEmpty then recs ++ ["Maintenance Training"] else recs

/-! ## Specification-side restatements used by the claims -/

/-- Medical-status weight exactly as the specification tabulates it. -/
def medicalPoints (s : String) : ℚ :=
  match jsToLower s with
  | "fit" => 40
  | "limited duty" => 25
  | "under review" => 10
  | _ => 20

/-- Skill-level weight exactly as the specification tabulates it. -/
def skillPoints (s : String) : ℚ :=
  match jsToLower s with
  | "expert" => 10
  | "advanced" => 8
  | "intermediate" => 6
  | "beginner" => 4
  | _ => 5

/-- Readiness score as the specification states it: a single rounded
weighted sum of the four contributions. -/
def readinessScoreClaim (p : PersonnelData) : ℤ :=
  round (medicalPoints p.medicalStatus + p.trainingScore / 100 * 30
    + min (p.experience / 20) 1 * 20 + skillPoints p.skillLevel)

/-- Attrition risk as the specification states it, with the age and
experience bands written as the inclusive intervals 41–45 and 11–15 over
integer years. -/
def attritionRiskClaim (age experience : ℤ) (trainingScore : ℚ)
    (medicalStatus missionReadiness : String) : String :=
  let s : ℤ :=
    (if 45 < age then 2 else if 41 ≤ age ∧ age ≤ 45 then 1 else 0)
    + (if 15 < experience then 2 else if 11 ≤ experience ∧ experience ≤ 15 then 1 else 0)
    + (if jsToLower medicalStatus ≠ "fit" then 1 else 0)
    + (if trainingScore < 70 then 1 else 0)
    + (if jsToLower missionReadiness = "not ready" then 1 else 0)
  if 4 ≤ s then "High" else if 2 ≤ s then "Medium" else "Low"

/-- C1: For every PersonnelRecord, calculateReadinessScore returns
round(m + trainingScore/100*30 + min(experience/20, 1)*20 + s), where m is
40/25/10 for Fit/Limited Duty/Under Review and 20 otherwise, and s is
10/8/6/4 for Expert/Advanced/Intermediate/Beginner and 5 otherwise, with
case-insensitive categorical matching and rounding to the nearest
integer. -/
theorem readinessScore_matches_claim (p : PersonnelData) :
    calculateReadinessScore p = readinessScoreClaim p := by
  unfold calculateReadinessScore readinessScoreClaim medicalPoints skillPoints
  congr 1
  ring

/-- C2: predictAttritionRisk sums 2/1/0 age points (age > 45 / band 41–45),
2/1/0 experience points (experience > 15 / band 11–15), 1 for non-"fit"
medical status, 1 for trainingScore < 70 and 1 for "not ready", then maps
score ≥ 4 to High, ≥ 2 to Medium, else Low.  Ages and experience are in
whole years, for which the source's strict `> 40` / `> 10` comparisons are
exactly the claim's inclusive bands. -/
theorem attritionRisk_matches_claim (age experience : ℤ) (trainingScore : ℚ)
    (id nm rk br sp medicalStatus missionReadiness ld sl lp : String) :
    predictAttritionRisk
      ⟨id, nm, rk, br, sp, (experience : ℚ), (age : ℚ), medicalStatus,
        trainingScore, missionReadiness, ld, sl, lp⟩
      = attritionRiskClaim age experience trainingScore medicalStatus missionReadiness := by
  have h1 : (if (45 : ℚ) < (age : ℚ) then (2 : ℤ) else if (40 : ℚ) < (age : ℚ) then 1 else 0)
      = (if 45 < age then 2 else if 41 ≤ age ∧ age ≤ 45 then 1 else 0) := by
    by_cases h45 : 45 < age
    · rw [if_pos (by exact_mod_cast h45), if_pos h45]
    · rw [if_neg (by exact_mod_cast h45), if_neg h45]
      by_cases h40 : 40 < age
      · rw [if_pos (by exact_mod_cast h40), if_pos (by omega)]
      · rw [if_neg (by exact_mod_cast h40), if_neg (by omega)]
  have h2 : (if (15 : ℚ) < (experience : ℚ) then (2 : ℤ)
        else if (10 : ℚ) < (experience : ℚ) then 1 else 0)
      = (if 15 < experience then 2
        else if 11 ≤ experience ∧ experience ≤ 15 then 1 else 0) := by
    by_cases h15 : 15 < experience
    · rw [if_pos (by exact_mod_cast h15), if_pos h15]
    · rw [if_neg (by exact_mod_cast h15), if_neg h15]
      by_cases h10 : 10 < experience
      · rw [if_pos (by exact_mod_cast h10), if_pos (by omega)]
      · rw [if_neg (by exact_mod_cast h10), if_neg (by omega)]
  simp only [predictAttritionRisk, attritionRiskClaim, h1, h2, zero_add]

/-! ## Record Normalizer: `parseCSVData`

The parsed row objects are dynamic: each property is a string or a number.
The association list is consed in assignment order and looked up from the
most recent entry, matching JS property overwrite semantics. -/

inductive Value where
  | str : String → Value
  | num : ℚ → Value
deriving DecidableEq

/-- JS truthiness of a property value: numbers are falsy exactly at 0 and
strings exactly when empty (an absent property, modelled as `none` at the
lookup sites, is also falsy). -/
def Value.truthy : Value → Bool
  | .str s => !(s == "")
  | .num q => decide (q ≠ 0)

/-- Embedding of `normalizeHeader`: lower-case, then strip every character
that is not a lower-case letter or digit (the second `replace` of the
source is a no-op after the first). -/
def normalizeHeader (header : String) : String :=
  String.mk ((jsToLower header).toList.filter fun c =>
    decide (('a' ≤ c ∧ c ≤ 'z') ∨ ('0' ≤ c ∧ c ≤ '9')))

/-- Field cleanup applied to every header and cell:
`.trim().replace(/"/g, '')`. -/
def cleanCell (v : String) : String :=
  String.mk ((jsTrim v).toList.filter fun c => c != '"')

/-- Splitting of one line into cells: `line.split(',')` followed by the
per-cell cleanup. -/
def splitCells (line : String) : List String :=
  (jsSplit ',' line).map cleanCell

/-- Normalized header keys coerced to numbers
(`['experience', 'age', 'trainingscore', 'score']`). -/
def numericKeys : List String := ["experience", "age", "trainingscore", "score"]

/-- Property assignment loop `headers.forEach(...)`: later assignments are
consed on and shadow earlier ones.  Numeric keys store
`parseFloat(value) || 0`, other keys store `value || ''` (the cell is
already a string, so that is the cell itself). -/
def recordOfRow (headers values : List String) : List (String × Value) :=
  (headers.zip values).foldl
    (fun rec hv =>
      let k := normalizeHeader hv.1
      let v : Value :=
        if numericKeys.contains (jsToLower k) then .num ((jsParseFloat hv.2).getD 0)
        else .str hv.2
      (k, v) :: rec)
    []

/-- Property read `record[k]`: `none` models `undefined`. -/
def recGet (rec : List (String × Value)) (k : String) : Option Value :=
  (rec.find? fun e => e.1 == k).map (·.2)

/-- Fallback chain `record.k1 || record.k2 || ...`: the first present and
truthy property, `none` when every alternative is absent or falsy. -/
def recChain (rec : List (String × Value)) : List String → Option Value
  | [] => none
  | k :: ks =>
    match recGet rec k with
    | some v => if v.truthy then some v else recChain rec ks
    | none => recChain rec ks

/-- The output row shape of `parseCSVData`: the thirteen explicitly listed
fields plus the raw parsed properties carried along by the trailing
`...record` spread. -/
structure ParsedPersonnel where
  id : Value
  name : Value
  rank : Value
  branch : Value
  specialization : Value
  experience : Value
  age : Value
  medicalStatus : Value
  trainingScore : Value
  missionReadiness : Value
  lastDeployment : Value
  skillLevel : Value
  leadershipPotential : Value
  raw : List (String × Value)
deriving DecidableEq

/-- Construction of one `personnelRecord` from a shape-matching row.  The
fallback chains run in the source's field order, consuming one random draw
(`u ctr`) whenever a randomized default is actually reached (JS `||` is
short-circuiting).  The trailing `...record` spread overwrites any field
whose exact name is also a normalized header key; the normalized keys are
all-lower-case, so only the seven all-lower-case field names (`id`,
`name`, `rank`, `branch`, `specialization`, `experience`, `age`) can be
overwritten, while the camel-case fields keep their chain results. -/
def buildRecord (headers values : List String) (i : ℕ) (u : ℕ → ℚ) (ctr : ℕ) :
    ParsedPersonnel × ℕ :=
  let record := recordOfRow headers values
  let idv := (recChain record ["id", "ID"]).getD (.str ("IAF" ++ zeroPad 4 i))
  let namev := (recChain record ["name", "Name", "fullname", "FullName"]).getD
    (.str ("Personnel " ++ toString i))
  let rankv := (recChain record ["rank", "Rank", "grade", "Grade"]).getD (.str "Officer")
  let branchv := (recChain record ["branch", "Branch", "service", "Service"]).getD
    (.str "Air Force")
  let specv := (recChain record
    ["specialization", "Specialization", "specialty", "Specialty"]).getD (.str "General")
  let expPair : Value × ℕ :=
    match recChain record ["experience", "Experience", "yearsofservice", "YearsOfService"] with
    | some v => (v, ctr)
    | none => (.num (((u ctr * 20).floor : ℚ) + 1), ctr + 1)
  let agePair : Value × ℕ :=
    match recChain record ["age", "Age"] with
    | some v => (v, expPair.2)
    | none => (.num (((u expPair.2 * 20).floor : ℚ) + 25), expPair.2 + 1)
  let medPair : Value × ℕ :=
    match recChain record ["medicalstatus", "MedicalStatus", "medical", "Medical"] with
    | some v => (v, agePair.2)
    | none =>
      (.str (["Fit", "Under Review", "Limited Duty"].getD (u agePair.2 * 3).floor.toNat ""),
        agePair.2 + 1)
  let tsPair : Value × ℕ :=
    match recChain record ["trainingscore", "TrainingScore", "score", "Score"] with
    | some v => (v, medPair.2)
    | none => (.num (((u medPair.2 * 40).floor : ℚ) + 60), medPair.2 + 1)
  let mrPair : Value × ℕ :=
    match recChain record ["missionreadiness", "MissionReadiness", "readiness", "Readiness"] with
    | some v => (v, tsPair.2)
    | none =>
      (.str (["Ready", "Training", "Not Ready"].getD (u tsPair.2 * 3).floor.toNat ""),
        tsPair.2 + 1)
  let ldv := (recChain record
    ["lastdeployment", "LastDeployment", "deployment", "Deployment"]).getD
    (.str "2024-01-01")
  let slPair : Value × ℕ :=
    match recChain record ["skilllevel", "SkillLevel", "level", "Level"] with
    | some v => (v, mrPair.2)
    | none =>
      (.str (["Expert", "Advanced", "Intermediate", "Beginner"].getD
        (u mrPair.2 * 4).floor.toNat ""), mrPair.2 + 1)
  let lpPair : Value × ℕ :=
    match recChain record ["leadershippotential", "LeadershipPotential", "leadership",
        "Leadership"] with
    | some v => (v, slPair.2)
    | none =>
      (.str (["High", "Medium", "Low"].getD (u slPair.2 * 3).floor.toNat ""), slPair.2 + 1)
  ({ id := (recGet record "id").getD idv
     name := (recGet record "name").getD namev
     rank := (recGet record "rank").getD rankv
     branch := (recGet record "branch").getD branchv
     specialization := (recGet record "specialization").getD specv
     experience := (recGet record "experience").getD expPair.1
     age := (recGet record "age").getD agePair.1
     medicalStatus := medPair.1
     trainingScore := tsPair.1
     missionReadiness := mrPair.1
     lastDeployment := ldv
     skillLevel := slPair.1
     leadershipPotential := lpPair.1
     raw := record }, lpPair.2)

/-- The data-row loop `for (let i = 1; ...)`: rows whose cell count differs
from the header count are skipped silently, all other rows are built in
order; the row index and the random counter advance across rows. -/
def processRows (headers : List String) (u : ℕ → ℚ) :
    List String → ℕ → ℕ → List ParsedPersonnel × ℕ
  | [], _, ctr => ([], ctr)
  | line :: rest, i, ctr =>
    let values := splitCells line
    if values.length = headers.length then
      let rc := buildRecord headers values i u ctr
      let rs := processRows headers u rest (i + 1) rc.2
      (rc.1 :: rs.1, rs.2)
    else
      processRows headers u rest (i + 1) ctr

/-- The ingestion failure message of the source. -/
def malformedInputMsg : String := "File must contain at least a header row and one data row"

/-- Core of `parseCSVData` after line splitting: fewer than two (non-blank)
lines reject the whole upload, otherwise the first line provides the
headers and the remaining lines are processed. -/
def parseCSVLines (lines : List String) (u : ℕ → ℚ) :
    Except String (List ParsedPersonnel) :=
  match lines with
  | [] => .error malformedInputMsg
  | [_] => .error malformedInputMsg
  | headerLine :: rest => .ok (processRows (splitCells headerLine) u rest 1 0).1

/-- Embedding of `parseCSVData` on the uploaded text: split at newlines,
drop blank lines (those whose trim is empty), then parse.  The promise
rejection is the `Except.error` branch; a rejection carries no records. -/
def parseCSVData (text : String) (u : ℕ → ℚ) : Except String (List ParsedPersonnel) :=
  parseCSVLines ((jsSplit '\n' text).filter fun l => !(jsTrim l == "")) u

/-- Records of a parse outcome (empty on rejection). -/
def recordsOf : Except String (List ParsedPersonnel) → List ParsedPersonnel
  | .ok rs => rs
  | .error _ => []

/-- Rejection discriminator. -/
def isParseError : Except String (List ParsedPersonnel) → Bool
  | .ok _ => false
  | .error _ => true

/-! ## Planning stores: training programs and missions -/

structure TrainingProgram where
  id : String
  name : String
  type : String
  duration : ℤ
  capacity : ℤ
  startDate : String
  endDate : String
  instructor : String
  description : String
  prerequisites : List String
  targetSkillLevel : String
  enrolledPersonnel : List String
  status : String
deriving DecidableEq

structure Mission where
  id : String
  name : String
  type : String
  priority : String
  startDate : String
  duration : ℤ
  requiredPersonnel : ℤ
  requiredSpecializations : List String
  status : String
  assignedPersonnel : List String
  location : String
  description : String
deriving DecidableEq

/-- Embedding of the training store's `enrollPersonnel` state update: the
personnel ID is appended to the matching program's roster only while the
roster is strictly below capacity. -/
def enrollPersonnel (programs : List TrainingProgram)
    (programId personnelId : String) : List TrainingProgram :=
  programs.map fun program =>
    if program.id = programId ∧ (program.enrolledPersonnel.length : ℤ) < program.capacity
    then { program with enrolledPersonnel := program.enrolledPersonnel ++ [personnelId] }
    else program

/-- Embedding of the mission store's `assignPersonnelToMission` state
update: the personnel ID is appended to the matching mission's roster
unconditionally (the source performs no capacity comparison here). -/
def assignPersonnelToMission (missions : List Mission)
    (missionId personnelId : String) : List Mission :=
  missions.map fun mission =>
    if mission.id = missionId
    then { mission with assignedPersonnel := mission.assignedPersonnel ++ [personnelId] }
    else mission

/-- The mission store's seeded initial state (`useState` initializer). -/
def initialMissions : List Mission :=
  [{ id := "M001", name := "Operation Thunder Strike", type := "Combat",
     priority := "High", startDate := "2024-02-15", duration := 90,
     requiredPersonnel := 25,
     requiredSpecializations := ["Pilot", "Engineer", "Communications"],
     status := "Planning", assignedPersonnel := [], location := "Northern Sector",
     description := "Strategic air operations in northern territory" },
   { id := "M002", name := "Humanitarian Relief Alpha", type := "Humanitarian",
     priority := "Medium", startDate := "2024-03-01", duration := 45,
     requiredPersonnel := 15,
     requiredSpecializations := ["Logistics", "Medical", "Transport"],
     status := "Planning", assignedPersonnel := [], location := "Eastern Region",
     description := "Disaster relief and humanitarian assistance operations" }]

/-- Capacity invariant of the training store: every program's roster is
within its capacity. -/
def programsWithinCapacity (programs : List TrainingProgram) : Bool :=
  programs.all fun p => decide ((p.enrolledPersonnel.length : ℤ) ≤ p.capacity)

/-- The program targeted by an enroll attempt is already at (or beyond)
capacity. -/
def targetAtCapacity (programs : List TrainingProgram) (programId : String) : Bool :=
  programs.all fun p =>
    !(p.id == programId) || decide (p.capacity ≤ (p.enrolledPersonnel.length : ℤ))

/-- Detects a mission whose roster strictly exceeds its required-personnel
capacity. -/
def someMissionOverCapacity (missions : List Mission) : Bool :=
  missions.any fun m => decide (m.requiredPersonnel < (m.assignedPersonnel.length : ℤ))

/-! ## Candidate suitability rankings -/

/-- First word of a string (`s.split(' ')[0]`). -/
def firstWord (s : String) : String := (jsSplit ' ' s).headD ""

/-- Embedding of the training-management `getSuitablePersonnel`: drop
already-enrolled and non-fit personnel, apply the search and
specialization filters and the recommendation-relevance heuristic, then
sort ascending by training score (`a.trainingScore - b.trainingScore`). -/
def getSuitablePersonnelTraining (now : ℤ) (dateMs : String → ℤ)
    (data : List PersonnelData) (searchTerm filterSpecialization : String)
    (program : TrainingProgram) : List PersonnelData :=
  List.insertionSort (fun a b => a.trainingScore ≤ b.trainingScore)
    (data.filter fun person =>
      if program.enrolledPersonnel.contains person.id then false
      else if !(jsToLower person.medicalStatus == "fit") then false
      else
        let searchMatch := searchTerm == "" ||
          jsIncludes (jsToLower person.name) (jsToLower searchTerm) ||
          jsIncludes (jsToLower person.specialization) (jsToLower searchTerm)
        let specMatch := filterSpecialization == "all" ||
          person.specialization == filterSpecialization
        let recommendations := generateTrainingRecommendations now dateMs person
        let isRecommended := recommendations.any fun rec =>
          jsIncludes (jsToLower rec) (firstWord (jsToLower program.name)) ||
          jsIncludes (jsToLower program.name) (firstWord (jsToLower rec))
        searchMatch && specMatch && (isRecommended || decide (person.trainingScore < 80)))

/-- Personnel augmented with the readiness score and availability computed
by the mission-deployment view. -/
structure ReadyPersonnel where
  person : PersonnelData
  readinessScore : ℤ
  availabilityStatus : String
  lastDeploymentDays : ℤ
deriving DecidableEq

/-- Embedding of `getAvailabilityStatus`: medical gate, then training gate,
then active-mission membership. -/
def getAvailabilityStatus (missions : List Mission) (person : PersonnelData) : String :=
  if !(jsToLower person.medicalStatus == "fit") then "Medical"
  else if jsToLower person.missionReadiness == "training" then "Training"
  else if missions.any fun mission =>
      mission.status == "Active" && mission.assignedPersonnel.contains person.id
    then "Deployed" else "Available"

/-- Embedding of `personnelWithReadiness`. -/
def personnelWithReadiness (now : ℤ) (dateMs : String → ℤ)
    (missions : List Mission) (data : List PersonnelData) : List ReadyPersonnel :=
  data.map fun person =>
    { person := person
      readinessScore := calculateReadinessScore person
      availabilityStatus := getAvailabilityStatus missions person
      lastDeploymentDays := (now - dateMs person.lastDeployment).fdiv 86400000 }

/-- Embedding of the mission-deployment `getSuitablePersonnel`: filter on
specialization requirement, availability, minimum readiness 70, search and
specialization filters, then sort descending by readiness score
(`b.readinessScore - a.readinessScore`). -/
def getSuitablePersonnelMission (now : ℤ) (dateMs : String → ℤ)
    (missions : List Mission) (data : List PersonnelData)
    (searchTerm filterSpecialization : String) (mission : Mission) :
    List ReadyPersonnel :=
  List.insertionSort (fun a b => b.readinessScore ≤ a.readinessScore)
    ((personnelWithReadiness now dateMs missions data).filter fun rp =>
      (mission.requiredSpecializations.isEmpty ||
        mission.requiredSpecializations.contains rp.person.specialization)
      && (rp.availabilityStatus == "Available")
      && decide (70 ≤ rp.readinessScore)
      && (searchTerm == "" ||
        jsIncludes (jsToLower rp.person.name) (jsToLower searchTerm) ||
        jsIncludes (jsToLower rp.person.specialization) (jsToLower searchTerm))
      && (filterSpecialization == "all" ||
        rp.person.specialization == filterSpecialization))

/-! ## Analytics aggregator: banded percentage summaries -/

/-- Model of `Number.prototype.toFixed(1)` on the percentage values: the
value rounded to the nearest tenth, halves toward +∞. -/
def jsToFixed1 (q : ℚ) : ℚ := ((q * 10 + 1 / 2).floor : ℚ) / 10

/-- Age band of `WorkforceAnalytics` (`<30`, `30-39`, `40-49`, `50+`). -/
def ageGroup (person : PersonnelData) : String :=
  if person.age < 30 then "<30"
  else if person.age < 40 then "30-39"
  else if person.age < 50 then "40-49"
  else "50+"

/-- Training-score band of `WorkforceAnalytics`. -/
def trainingScoreGroup (person : PersonnelData) : String :=
  if 90 ≤ person.trainingScore then "90-100"
  else if 80 ≤ person.trainingScore then "80-89"
  else if 70 ≤ person.trainingScore then "70-79"
  else if 60 ≤ person.trainingScore then "60-69"
  else "<60"

/-- Banded percentage list of the aggregator for one categorical key
function: one entry per distinct occurring key, each
`toFixed(count / data.length * 100)`-style value with the full population
as denominator.  (Entry order is irrelevant to the sums studied here.) -/
def bandPercentages (f : PersonnelData → String) (data : List PersonnelData) : List ℚ :=
  ((data.map f).dedup).map fun k =>
    jsToFixed1 (((data.map f).count k : ℚ) / (data.length : ℚ) * 100)

/-- Sum of the per-band percentages of one categorical field. -/
def percentTotal (f : PersonnelData → String) (data : List PersonnelData) : ℚ :=
  (bandPercentages f data).sum

/-! ## Exemplar data used by witnesses and counterexamples -/

/-- A personnel record on which none of the five recommendation rules
fires. -/
def steadyPersonnel : PersonnelData :=
  { id := "P001", name := "Asha", rank := "Officer", branch := "Air Force",
    specialization := "General", experience := 3, age := 30,
    medicalStatus := "Fit", trainingScore := 80, missionReadiness := "Ready",
    lastDeployment := "2024-01-01", skillLevel := "Expert",
    leadershipPotential := "Low" }

/-- A training program whose single roster slot is already taken. -/
def atCapProgram : TrainingProgram :=
  { id := "T001", name := "Advanced Flight Operations", type := "Technical",
    duration := 14, capacity := 1, startDate := "2024-03-01",
    endDate := "2024-03-15", instructor := "Wing Commander Sharma",
    description := "", prerequisites := [], targetSkillLevel := "Advanced",
    enrolledPersonnel := ["P001"], status := "Planned" }

/-- The mission store after twenty-six assignment clicks on mission `M001`
(capacity 25), each one a reachable user action. -/
def overAssignedMissions : List Mission :=
  (fun ms => assignPersonnelToMission ms "M001" "A1")^[26] initialMissions

/-- Fourteen personnel records carrying fourteen distinct free-text skill
levels. -/
def skillVariety : List PersonnelData :=
  ["A", "B", "C", "D", "E", "F", "G", "H", "I", "J", "K", "L", "M", "N"].map fun s =>
    { id := s, name := s, rank := "Officer", branch := "Air Force",
      specialization := "General", experience := 5, age := 30,
      medicalStatus := "Fit", trainingScore := 75, missionReadiness := "Ready",
      lastDeployment := "2024-01-01", skillLevel := s, leadershipPotential := "Low" }

/-! ## Theorems -/

/-- Helper: the fallback step of the recommendation list never returns an
empty list. -/
theorem recsWithFallback_ne_nil (l : List String) :
    (if l.isEmpty then l ++ ["Maintenance Training"] else l) ≠ [] := by
  cases l <;> simp

/-- C7: parseCSVData fails (with the malformed-input rejection handed to
the caller) exactly when the uploaded text has fewer than two non-blank
lines; the `Except` result carries no records in that case, so the batch
is all-or-nothing. -/
theorem parseError_iff_tooFewLines (text : String) (u : ℕ → ℚ) :
    isParseError (parseCSVData text u) = true ↔
      ((jsSplit '\n' text).filter fun l => !(jsTrim l == "")).length < 2 := by
  unfold parseCSVData
  cases h : (jsSplit '\n' text).filter fun l => !(jsTrim l == "") with
  | nil => simp [h, parseCSVLines, isParseError]
  | cons a rest =>
    cases rest with
    | nil => simp [h, parseCSVLines, isParseError]
    | cons b t =>
      simp only [h, parseCSVLines, isParseError, List.length_cons]
      constructor
      · intro hfalse
        cases hfalse
      · intro hlen
        omega

/-- Witness for C7 at a one-line upload. -/
theorem parseError_iff_tooFewLines_witness :
    isParseError (parseCSVData "Training Score" fun _ => 0) = true :=
  (parseError_iff_tooFewLines "Training Score" fun _ => 0).mpr (by decide)

/-- C8: generateTrainingRecommendations always returns a non-empty list,
and when none of the five rules fires (trainingScore ≥ 70, skillLevel not
Beginner/Intermediate, not both high leadership potential and experience
over five years, missionReadiness not Training, at most 365 days since
last deployment) the result is exactly `["Maintenance Training"]`; the
reference date is injected through `now` and `dateMs`. -/
theorem trainingRecommendations_fallback (now : ℤ) (dateMs : String → ℤ)
    (p : PersonnelData) :
    generateTrainingRecommendations now dateMs p ≠ [] ∧
    (70 ≤ p.trainingScore →
      jsToLower p.skillLevel ≠ "beginner" →
      jsToLower p.skillLevel ≠ "intermediate" →
      ¬(jsToLower p.leadershipPotential = "high" ∧ 5 < p.experience) →
      jsToLower p.missionReadiness ≠ "training" →
      (now - dateMs p.lastDeployment).fdiv 86400000 ≤ 365 →
      generateTrainingRecommendations now dateMs p = ["Maintenance Training"]) := by
  constructor
  · exact recsWithFallback_ne_nil _
  · intro h1 h2 h3 h4 h5 h6
    have c1 : ¬ p.trainingScore < 70 := not_lt.mpr h1
    have c2 : ¬ (jsToLower p.skillLevel = "beginner" ∨
        jsToLower p.skillLevel = "intermediate") := not_or.mpr ⟨h2, h3⟩
    have c5 : ¬ 365 < (now - dateMs p.lastDeployment).fdiv 86400000 := not_lt.mpr h6
    simp [generateTrainingRecommendations, if_neg c1, if_neg c2, if_neg h4,
      if_neg h5, if_neg c5]

/-- Witness for C8 on a record firing no rule. -/
theorem trainingRecommendations_fallback_witness :
    generateTrainingRecommendations 0 (fun _ => 0) steadyPersonnel ≠ [] ∧
    generateTrainingRecommendations 0 (fun _ => 0) steadyPersonnel
      = ["Maintenance Training"] :=
  ⟨(trainingRecommendations_fallback 0 (fun _ => 0) steadyPersonnel).1,
   (trainingRecommendations_fallback 0 (fun _ => 0) steadyPersonnel).2
     (by decide) (by decide) (by decide) (by decide) (by decide) (by decide)⟩

/-- C5 (amended part): the training-program store's enroll preserves the
roster-within-capacity invariant, and an enroll attempt against a program
already at capacity leaves the store completely unchanged (a silent
no-op).  The mission store does not share this guard, see the
counterexample. -/
theorem enroll_clamps_at_capacity (programs : List TrainingProgram)
    (programId personnelId : String)
    (h : programsWithinCapacity programs = true) :
    programsWithinCapacity (enrollPersonnel programs programId personnelId) = true ∧
    (targetAtCapacity programs programId = true →
      enrollPersonnel programs programId personnelId = programs) := by
  constructor
  · simp only [programsWithinCapacity, List.all_eq_true, decide_eq_true_eq] at h ⊢
    intro q hq
    simp only [enrollPersonnel, List.mem_map] at hq
    obtain ⟨p, hp, rfl⟩ := hq
    by_cases hc : p.id = programId ∧ (p.enrolledPersonnel.length : ℤ) < p.capacity
    · rw [if_pos hc]
      simp only [List.length_append, List.length_cons, List.length_nil]
      push_cast
      have := hc.2
      omega
    · rw [if_neg hc]
      exact h p hp
  · intro hat
    simp only [targetAtCapacity, List.all_eq_true] at hat
    unfold enrollPersonnel
    have hself : ∀ p ∈ programs,
        (if p.id = programId ∧ (p.enrolledPersonnel.length : ℤ) < p.capacity
          then { p with enrolledPersonnel := p.enrolledPersonnel ++ [personnelId] }
          else p) = p := by
      intro p hp
      rw [if_neg]
      rintro ⟨h1, h2⟩
      have hcap := hat p hp
      rw [h1] at hcap
      simp only [beq_self_eq_true, Bool.not_true, Bool.false_or,
        decide_eq_true_eq] at hcap
      omega
    have hmap := List.map_congr_left hself
    simpa using hmap

/-- Witness for C5 on a program whose single slot is already filled. -/
theorem enroll_clamps_at_capacity_witness :
    enrollPersonnel [atCapProgram] "T001" "P002" = [atCapProgram] :=
  (enroll_clamps_at_capacity [atCapProgram] "T001" "P002" (by decide)).2 (by decide)

/-- C5 counterexample: the mission store's assign operation has no capacity
guard, so twenty-six assignments to mission `M001` (required personnel 25)
drive its roster to 26, a reachable state whose roster size exceeds the
entity's capacity — refuting the claim for the mission planning store. -/
theorem missionAssign_exceedsCapacity_cex :
    someMissionOverCapacity overAssignedMissions = true := by decide

/-- C6: the training-program candidate ranking is sorted ascending by
training score (neediest first) while the mission candidate ranking is
sorted descending by readiness score (most capable first), for every
record collection, filter state, program and mission. -/
theorem suitability_sort_directions (now : ℤ) (dateMs : String → ℤ)
    (data : List PersonnelData) (searchTerm filterSpecialization : String)
    (program : TrainingProgram) (missions : List Mission) (mission : Mission) :
    List.Sorted (fun a b => a.trainingScore ≤ b.trainingScore)
      (getSuitablePersonnelTraining now dateMs data searchTerm
        filterSpecialization program) ∧
    List.Sorted (fun a b : ReadyPersonnel => b.readinessScore ≤ a.readinessScore)
      (getSuitablePersonnelMission now dateMs missions data searchTerm
        filterSpecialization mission) := by
  constructor
  · haveI ht : IsTotal PersonnelData fun a b => a.trainingScore ≤ b.trainingScore :=
      ⟨fun a b => le_total _ _⟩
    haveI htr : IsTrans PersonnelData fun a b => a.trainingScore ≤ b.trainingScore :=
      ⟨fun a b c hab hbc => le_trans hab hbc⟩
    unfold getSuitablePersonnelTraining
    exact List.sorted_insertionSort _ _
  · haveI ht : IsTotal ReadyPersonnel fun a b => b.readinessScore ≤ a.readinessScore :=
      ⟨fun a b => le_total _ _⟩
    haveI htr : IsTrans ReadyPersonnel fun a b => b.readinessScore ≤ a.readinessScore :=
      ⟨fun a b c hab hbc => le_trans hbc hab⟩
    unfold getSuitablePersonnelMission
    exact List.sorted_insertionSort _ _

/-- Helper: tenth-rounding moves a value by at most 1/20. -/
theorem abs_jsToFixed1_sub (q : ℚ) : |jsToFixed1 q - q| ≤ 1 / 20 := by
  unfold jsToFixed1
  have hbridge : ((q * 10 + 1 / 2).floor : ℤ) = ⌊q * 10 + 1 / 2⌋ := rfl
  rw [hbridge]
  have h1 : ((⌊q * 10 + 1 / 2⌋ : ℤ) : ℚ) ≤ q * 10 + 1 / 2 := Int.floor_le _
  have h2 : q * 10 + 1 / 2 - 1 < ((⌊q * 10 + 1 / 2⌋ : ℤ) : ℚ) := Int.sub_one_lt_floor _
  rw [abs_le]
  constructor <;> linarith

/-- Helper: rounding every summand to tenths moves a sum of `n` values by
at most `n/20`. -/
theorem abs_sum_jsToFixed1_sub (g : String → ℚ) (ks : List String) :
    |(ks.map fun k => jsToFixed1 (g k)).sum - (ks.map g).sum| ≤ (ks.length : ℚ) / 20 := by
  induction ks with
  | nil => simp
  | cons k ks ih =>
    simp only [List.map_cons, List.sum_cons, List.length_cons]
    have hsplit : jsToFixed1 (g k) + (ks.map fun x => jsToFixed1 (g x)).sum
        - (g k + (ks.map g).sum)
        = (jsToFixed1 (g k) - g k)
          + ((ks.map fun x => jsToFixed1 (g x)).sum - (ks.map g).sum) := by ring
    rw [hsplit]
    refine le_trans (abs_add _ _) ?bound
    have h0 := abs_jsToFixed1_sub (g k)
    push_cast
    linarith

/-- Helper: summing `count * c` over the distinct values of a list gives
`length * c`. -/
theorem sum_count_mul (l : List String) (c : ℚ) :
    (l.dedup.map fun k => (l.count k : ℚ) * c).sum = (l.length : ℚ) * c := by
  have key : ∀ ks : List String,
      (ks.map fun k => (l.count k : ℚ) * c).sum = (((ks.map fun k => l.count k).sum : ℕ) : ℚ) * c := by
    intro ks
    induction ks with
    | nil => simp
    | cons k ks ih =>
      simp only [List.map_cons, List.sum_cons, ih]
      push_cast
      ring
  rw [key, List.sum_map_count_dedup_eq_length]

/-- Helper: the aggregator's per-band percentages over one categorical key
sum to 100 up to 1/20 per occurring band. -/
theorem percentTotal_close (f : PersonnelData → String) (data : List PersonnelData)
    (h : data ≠ []) :
    |percentTotal f data - 100| ≤ (((data.map f).dedup.length : ℚ)) / 20 := by
  have hlen : data.length ≠ 0 := fun h0 => h (List.length_eq_zero.mp h0)
  have hn : ((data.length : ℕ) : ℚ) ≠ 0 := Nat.cast_ne_zero.mpr hlen
  have hx : ((data.map f).dedup.map fun k =>
      ((data.map f).count k : ℚ) / (data.length : ℚ) * 100).sum = 100 := by
    have hcongr : ((data.map f).dedup.map fun k =>
        ((data.map f).count k : ℚ) / (data.length : ℚ) * 100)
        = ((data.map f).dedup.map fun k =>
          ((data.map f).count k : ℚ) * (100 / (data.length : ℚ))) := by
      refine List.map_congr_left fun k _ => ?e
      ring
    rw [hcongr, sum_count_mul, List.length_map]
    field_simp
  have hb := abs_sum_jsToFixed1_sub
    (fun k => ((data.map f).count k : ℚ) / (data.length : ℚ) * 100) (data.map f).dedup
  unfold percentTotal bandPercentages
  rw [hx] at hb
  exact hb

/-- Helper: a list whose elements all come from `allowed` has at most
`allowed.length` distinct values. -/
theorem dedup_length_le (l allowed : List String)
    (hsub : ∀ x ∈ l, x ∈ allowed) : l.dedup.length ≤ allowed.length := by
  have h1 : l.dedup.length = l.toFinset.card := (List.card_toFinset l).symm
  rw [h1]
  refine le_trans (Finset.card_le_card ?sub) (List.toFinset_card_le allowed)
  intro x hx
  rw [List.mem_toFinset] at hx ⊢
  exact hsub x hx

/-- Helper: the age band function takes only the four banded values. -/
theorem ageGroup_mem_bands (p : PersonnelData) :
    ageGroup p ∈ ["<30", "30-39", "40-49", "50+"] := by
  unfold ageGroup
  split_ifs <;> simp

/-- Helper: the training-score band function takes only the five banded
values. -/
theorem trainingScoreGroup_mem_bands (p : PersonnelData) :
    trainingScoreGroup p ∈ ["90-100", "80-89", "70-79", "60-69", "<60"] := by
  unfold trainingScoreGroup
  split_ifs <;> simp

/-- C9 (amended part): for every non-empty record collection the per-band
percentages of the fixed-band continuous fields (age bands and
training-score bands) sum to 100 within ±0.5: at most four, respectively
five, bands can occur, each rounded to a tenth, so the total drift is at
most 0.25.  (The free-text categorical fields admit arbitrarily many
bands, where the tolerance fails — see the counterexample.) -/
theorem bandPercentages_sum_near100 (data : List PersonnelData) (h : data ≠ []) :
    |percentTotal ageGroup data - 100| ≤ 1 / 2 ∧
    |percentTotal trainingScoreGroup data - 100| ≤ 1 / 2 := by
  constructor
  · refine le_trans (percentTotal_close ageGroup data h) ?ha
    have hle : (data.map ageGroup).dedup.length ≤ 4 := by
      have hsub : ∀ x ∈ data.map ageGroup, x ∈ ["<30", "30-39", "40-49", "50+"] := by
        intro x hx
        rcases List.mem_map.mp hx with ⟨p, hp, hpx⟩
        rw [← hpx]
        exact ageGroup_mem_bands p
      exact dedup_length_le _ _ hsub
    have hle2 : ((data.map ageGroup).dedup.length : ℚ) ≤ 4 := by exact_mod_cast hle
    linarith
  · refine le_trans (percentTotal_close trainingScoreGroup data h) ?hb
    have hle : (data.map trainingScoreGroup).dedup.length ≤ 5 := by
      have hsub : ∀ x ∈ data.map trainingScoreGroup,
          x ∈ ["90-100", "80-89", "70-79", "60-69", "<60"] := by
        intro x hx
        rcases List.mem_map.mp hx with ⟨p, hp, hpx⟩
        rw [← hpx]
        exact trainingScoreGroup_mem_bands p
      exact dedup_length_le _ _ hsub
    have hle2 : ((data.map trainingScoreGroup).dedup.length : ℚ) ≤ 5 := by exact_mod_cast hle
    linarith

/-- Witness for C9 on a one-record collection. -/
theorem bandPercentages_sum_near100_witness :
    |percentTotal ageGroup [steadyPersonnel] - 100| ≤ 1 / 2 ∧
    |percentTotal trainingScoreGroup [steadyPersonnel] - 100| ≤ 1 / 2 :=
  bandPercentages_sum_near100 [steadyPersonnel] (List.cons_ne_nil _ _)

/-- C9 counterexample: over fourteen records with fourteen distinct
skill-level strings the aggregator's skill-level percentages are fourteen
copies of 7.1, summing to 99.4 — outside the ±0.5 tolerance, refuting the
claim for a free-text categorical field. -/
theorem skillPercentages_sum_drift_cex :
    percentTotal (fun p => p.skillLevel) skillVariety = 497 / 5 ∧
    ¬ |(497 : ℚ) / 5 - 100| ≤ 1 / 2 := by
  constructor
  · decide
  · rw [show (497 : ℚ) / 5 - 100 = -(3 / 5) by norm_num, abs_neg,
      abs_of_pos (by norm_num)]
    norm_num

/-- Helper: a two-line upload whose single data row matches a one-column
header produces exactly the one built record. -/
theorem parseCSVLines_pair (hdr cell c : String) (u : ℕ → ℚ)
    (hv : splitCells cell = [c]) (hh : (splitCells hdr).length = 1) :
    parseCSVLines [hdr, cell] u
      = .ok [(buildRecord (splitCells hdr) [c] 1 u 0).1] := by
  simp [parseCSVLines, processRows, hv, hh]

/-- Helper: the parsed-property list of a one-column row. -/
theorem recordOfRow_single (hdr c : String) :
    recordOfRow [hdr] [c] =
      [(normalizeHeader hdr,
        if numericKeys.contains (jsToLower (normalizeHeader hdr))
        then Value.num ((jsParseFloat c).getD 0) else Value.str c)] := rfl

/-- Helper: an `experience` column is a numeric key. -/
theorem recordOfRow_experience (c : String) :
    recordOfRow ["experience"] [c]
      = [("experience", Value.num ((jsParseFloat c).getD 0))] := by
  rw [recordOfRow_single]
  simp [show normalizeHeader "experience" = "experience" from by decide]
  decide

/-- Helper: an `age` column is a numeric key. -/
theorem recordOfRow_age (c : String) :
    recordOfRow ["age"] [c] = [("age", Value.num ((jsParseFloat c).getD 0))] := by
  rw [recordOfRow_single]
  simp [show normalizeHeader "age" = "age" from by decide]
  decide

/-- Helper: a `Training Score` column normalizes to the numeric key
`trainingscore`, which differs from the output field name
`trainingScore`. -/
theorem recordOfRow_trainingScore (c : String) :
    recordOfRow ["Training Score"] [c]
      = [("trainingscore", Value.num ((jsParseFloat c).getD 0))] := by
  rw [recordOfRow_single]
  simp [show normalizeHeader "Training Score" = "trainingscore" from by decide]
  decide

/-- Helper: a zero-valued `experience` cell survives to the output record
through the trailing `...record` spread. -/
theorem buildRecord_experience_zero (c : String) (u : ℕ → ℚ) (i ctr : ℕ)
    (hc : (jsParseFloat c).getD 0 = 0) :
    (buildRecord ["experience"] [c] i u ctr).1.experience = Value.num 0 := by
  simp only [buildRecord, recordOfRow_experience, hc]
  rfl

/-- Helper: a zero-valued `age` cell survives to the output record through
the trailing `...record` spread. -/
theorem buildRecord_age_zero (c : String) (u : ℕ → ℚ) (i ctr : ℕ)
    (hc : (jsParseFloat c).getD 0 = 0) :
    (buildRecord ["age"] [c] i u ctr).1.age = Value.num 0 := by
  simp only [buildRecord, recordOfRow_age, hc]
  rfl

/-- Helper: a zero-valued `Training Score` cell is falsy, so the
`trainingScore` field falls through the whole alias chain to the random
fallback `Math.floor(Math.random() * 40) + 60`, consuming the fourth draw
of the row (after the experience, age and medical-status fallbacks). -/
theorem buildRecord_trainingScore_fallback (c : String) (u : ℕ → ℚ) (i ctr : ℕ)
    (hc : (jsParseFloat c).getD 0 = 0) :
    (buildRecord ["Training Score"] [c] i u ctr).1.trainingScore
      = Value.num (((u (ctr + 3) * 40).floor : ℚ) + 60) := by
  simp only [buildRecord, recordOfRow_trainingScore, hc]
  rfl

/-- C3 (amended part): a cell of a recognized numeric column that fails to
parse is stored as 0 and the row is still ingested; the produced record
keeps that 0 for the `experience` and `age` fields (the raw-record spread
restores it), but for a training-score column the falsy 0 falls through
the default chain and the `trainingScore` field instead receives the
random fallback value, an integer in [60, 99] — never 0. -/
theorem unparseableNumericCell_amended (cell c : String) (u : ℕ → ℚ)
    (hv : splitCells cell = [c]) (hfail : jsParseFloat c = none)
    (hu0 : 0 ≤ u 3) (hu1 : u 3 < 1) :
    (recordsOf (parseCSVLines ["experience", cell] u)).map (fun r => r.experience)
      = [Value.num 0] ∧
    (recordsOf (parseCSVLines ["age", cell] u)).map (fun r => r.age)
      = [Value.num 0] ∧
    (recordsOf (parseCSVLines ["Training Score", cell] u)).map (fun r => r.trainingScore)
      = [Value.num (((u 3 * 40).floor : ℚ) + 60)] ∧
    (60 : ℚ) ≤ ((u 3 * 40).floor : ℚ) + 60 ∧
    ((u 3 * 40).floor : ℚ) + 60 ≤ 99 := by
  have hc : (jsParseFloat c).getD 0 = 0 := by rw [hfail]; rfl
  have hfl : ((u 3 * 40).floor : ℤ) = ⌊u 3 * 40⌋ := rfl
  have hb1 : (0 : ℤ) ≤ ⌊u 3 * 40⌋ := Int.floor_nonneg.mpr (by nlinarith)
  have hb2 : (⌊u 3 * 40⌋ : ℚ) ≤ u 3 * 40 := Int.floor_le _
  refine ⟨?e1, ?e2, ?e3, ?e4, ?e5⟩
  · rw [parseCSVLines_pair "experience" cell c u hv (by decide)]
    rw [show splitCells "experience" = ["experience"] from by decide]
    simp [recordsOf, buildRecord_experience_zero c u 1 0 hc]
  · rw [parseCSVLines_pair "age" cell c u hv (by decide)]
    rw [show splitCells "age" = ["age"] from by decide]
    simp [recordsOf, buildRecord_age_zero c u 1 0 hc]
  · rw [parseCSVLines_pair "Training Score" cell c u hv (by decide)]
    rw [show splitCells "Training Score" = ["Training Score"] from by decide]
    simp [recordsOf, buildRecord_trainingScore_fallback c u 1 0 hc]
  · rw [hfl]
    have : (0 : ℚ) ≤ (⌊u 3 * 40⌋ : ℚ) := by exact_mod_cast hb1
    linarith
  · rw [hfl]
    have h40 : (⌊u 3 * 40⌋ : ℚ) < 40 := lt_of_le_of_lt hb2 (by nlinarith)
    have h39 : (⌊u 3 * 40⌋ : ℤ) ≤ 39 := by exact_mod_cast Int.lt_add_one_iff.mp (by exact_mod_cast h40)
    have : (⌊u 3 * 40⌋ : ℚ) ≤ 39 := by exact_mod_cast h39
    linarith

/-- Witness for C3 at the unparseable cell `abc` and the zero draw
stream. -/
theorem unparseableNumericCell_amended_witness :
    (recordsOf (parseCSVLines ["experience", "abc"] fun _ => 0)).map
      (fun r => r.experience) = [Value.num 0] ∧
    (recordsOf (parseCSVLines ["Training Score", "abc"] fun _ => 0)).map
      (fun r => r.trainingScore) = [Value.num 60] := by
  have h := unparseableNumericCell_amended "abc" "abc" (fun _ => 0)
    (by decide) (by decide) (by decide) (by decide)
  exact ⟨h.1, h.2.2.1.trans (by decide)⟩

/-- C3 counterexample: on the upload `Training Score\nabc` (with the zero
draw stream) the produced record's trainingScore field is 60, not 0 — the
parse failure is stored as 0 only in the intermediate row object, and the
claim's "yields 0 for that field in the produced PersonnelRecord" fails
for the training-score column. -/
theorem unparseableTrainingScore_cex :
    (recordsOf (parseCSVData "Training Score\nabc" fun _ => 0)).map
      (fun r => r.trainingScore) = [Value.num 60] ∧
    Value.num 60 ≠ Value.num 0 := by decide

/-- C10 (amended part): a numeric cell that parses to the value 0 is kept
as 0 for the `experience` and `age` fields of the produced record — the
trailing `...record` spread restores the raw 0 after the default chain has
picked a fallback — while only the trainingScore field (whose normalized
header key `trainingscore` differs from the camel-case field name) loses
the 0 to the random fallback in [60, 99]. -/
theorem zeroNumericCell_amended (cell c : String) (u : ℕ → ℚ)
    (hv : splitCells cell = [c]) (hzero : jsParseFloat c = some 0)
    (hu0 : 0 ≤ u 3) (hu1 : u 3 < 1) :
    (recordsOf (parseCSVLines ["experience", cell] u)).map (fun r => r.experience)
      = [Value.num 0] ∧
    (recordsOf (parseCSVLines ["age", cell] u)).map (fun r => r.age)
      = [Value.num 0] ∧
    (recordsOf (parseCSVLines ["Training Score", cell] u)).map (fun r => r.trainingScore)
      = [Value.num (((u 3 * 40).floor : ℚ) + 60)] ∧
    (60 : ℚ) ≤ ((u 3 * 40).floor : ℚ) + 60 ∧
    ((u 3 * 40).floor : ℚ) + 60 ≤ 99 := by
  have hc : (jsParseFloat c).getD 0 = 0 := by rw [hzero]; rfl
  have hfl : ((u 3 * 40).floor : ℤ) = ⌊u 3 * 40⌋ := rfl
  have hb1 : (0 : ℤ) ≤ ⌊u 3 * 40⌋ := Int.floor_nonneg.mpr (by nlinarith)
  have hb2 : (⌊u 3 * 40⌋ : ℚ) ≤ u 3 * 40 := Int.floor_le _
  refine ⟨?f1, ?f2, ?f3, ?f4, ?f5⟩
  · rw [parseCSVLines_pair "experience" cell c u hv (by decide)]
    rw [show splitCells "experience" = ["experience"] from by decide]
    simp [recordsOf, buildRecord_experience_zero c u 1 0 hc]
  · rw [parseCSVLines_pair "age" cell c u hv (by decide)]
    rw [show splitCells "age" = ["age"] from by decide]
    simp [recordsOf, buildRecord_age_zero c u 1 0 hc]
  · rw [parseCSVLines_pair "Training Score" cell c u hv (by decide)]
    rw [show splitCells "Training Score" = ["Training Score"] from by decide]
    simp [recordsOf, buildRecord_trainingScore_fallback c u 1 0 hc]
  · rw [hfl]
    have : (0 : ℚ) ≤ (⌊u 3 * 40⌋ : ℚ) := by exact_mod_cast hb1
    linarith
  · rw [hfl]
    have h40 : (⌊u 3 * 40⌋ : ℚ) < 40 := lt_of_le_of_lt hb2 (by nlinarith)
    have h39 : (⌊u 3 * 40⌋ : ℤ) ≤ 39 := by exact_mod_cast Int.lt_add_one_iff.mp (by exact_mod_cast h40)
    have : (⌊u 3 * 40⌋ : ℚ) ≤ 39 := by exact_mod_cast h39
    linarith

/-- Witness for C10 at the literal cell `0` and the zero draw stream. -/
theorem zeroNumericCell_amended_witness :
    (recordsOf (parseCSVLines ["experience", "0"] fun _ => 0)).map
      (fun r => r.experience) = [Value.num 0] ∧
    (recordsOf (parseCSVLines ["age", "0"] fun _ => 0)).map
      (fun r => r.age) = [Value.num 0] := by
  have h := zeroNumericCell_amended "0" "0" (fun _ => 0)
    (by decide) (by decide) (by decide) (by decide)
  exact ⟨h.1, h.2.1⟩

/-- C10 counterexample: the upload `experience\n0` (with the zero draw
stream, whose fallback for experience would be 1) produces a record whose
experience field is still 0 — the claimed replacement of falsy zeros by
generated fallbacks does not happen for the experience field. -/
theorem zeroExperienceSurvives_cex :
    (recordsOf (parseCSVData "experience\n0" fun _ => 0)).map
      (fun r => r.experience) = [Value.num 0] ∧
    Value.num 0 ≠ Value.num ((((0 : ℚ) * 20).floor : ℚ) + 1) := by decide

/-- C4 (amended part): the cell splitter removes every double-quote
character from every field, but quoting does not protect commas — a line
is split at every comma regardless of quotes, so a quoted field containing
a comma contributes extra fields, and any row whose resulting field count
differs from the header count is silently skipped by the row loop. -/
theorem quotedField_split_amended (line : String) :
    (∀ f ∈ splitCells line, '"' ∉ f.toList) ∧
    (splitCells line).length = (jsSplit ',' line).length ∧
    (∀ (headers rest : List String) (i ctr : ℕ) (u : ℕ → ℚ),
      (splitCells line).length ≠ headers.length →
      processRows headers u (line :: rest) i ctr
        = processRows headers u rest (i + 1) ctr) := by
  refine ⟨?q1, ?q2, ?q3⟩
  · intro f hf
    rcases List.mem_map.mp hf with ⟨v, hv, hfv⟩
    rw [← hfv]
    intro hmem
    unfold cleanCell at hmem
    have hstr : ((String.mk ((jsTrim v).toList.filter fun c => c != '"')).toList)
        = ((jsTrim v).toList.filter fun c => c != '"') := rfl
    rw [hstr] at hmem
    have := List.of_mem_filter hmem
    simp at this
  · unfold splitCells
    exact List.length_map _ _
  · intro headers rest i ctr u hne
    simp only [processRows, if_neg hne]

/-- Witness for C4's amended row-skip behaviour: the two-header row
`"x,y",z` has three cleaned fields, so the row loop drops it. -/
theorem quotedField_split_amended_witness :
    processRows ["a", "b"] (fun _ => 0) ["\"x,y\",z"] 1 0
      = processRows ["a", "b"] (fun _ => 0) [] 2 0 :=
  (quotedField_split_amended "\"x,y\",z").2.2 ["a", "b"] [] 1 0 (fun _ => 0) (by decide)

/-- C4 counterexample: the upload `a,b` / `"x,y",z` parses without error
but produces no records at all — the quoted field `"x,y"` is split at its
comma into the three fields `x`, `y`, `z`, the field count 3 differs from
the header count 2, and the row is skipped rather than ingested as the
claim requires. -/
theorem quotedCommaRow_skipped_cex :
    recordsOf (parseCSVData "a,b\n\"x,y\",z" fun _ => 0) = [] ∧
    isParseError (parseCSVData "a,b\n\"x,y\",z" fun _ => 0) = false ∧
    splitCells "\"x,y\",z" = ["x", "y", "z"] := by decide
